import Mathlib

set_option linter.unusedVariables false

/-!
Verification of the plugin-comparison core of `wordpress-org-mcp`
(`src/plugin-comparator.ts`): the directory enumerator (`getPluginFiles`),
the tree comparator (`comparePlugins` / `compareFiles` / `getFileSize`) and
the report formatter (`formatComparisonSummary`).

The filesystem that `fs/promises` exposes is modelled as an immutable tree
(`FSNode`): a directory holds a listing (`none` when `readdir` fails, e.g.
missing directory or permission denied) and a non-directory entry carries
the outcome of reading it as UTF-8 text (`none` when the read or decode
fails, e.g. binary content) and the outcome of `stat` (`none` when the stat
fails).  Node's `path.sep` is a parameter `sep : Char` (`'/'` on POSIX,
`'\x5c'` on Windows); `path.join`/`path.relative` on the paths this code
builds amount to joining and splitting on that separator.
-/

/-- Model of one filesystem node, as seen through `fs/promises`:
`file text size` is a non-directory entry (`text` is the result of
`readFile` as utf-8, `size` the result of `stat().size`, each `none`
when the corresponding call throws); `dir listing` is a directory
(`listing = none` when `readdir` throws). -/
inductive FSNode where
  | file (text : Option String) (size : Option Nat) : FSNode
  | dir (listing : Option (List (String × FSNode))) : FSNode
deriving Repr

/-- Path accumulation of the walkDir of the source: the relative path of an
entry named `name` inside the directory whose own relative path is `pre`
(`path.relative(basePath, path.join(dir, entry.name))`). -/
def joinRel (sep : Char) (pre name : String) : String :=
  if pre = "" then name else pre ++ sep.toString ++ name

mutual

/-- The recursive `walkDir` of `getPluginFiles`: a failed `readdir`
(`dir none`, or a root that is not a directory) contributes no files;
otherwise every non-directory entry contributes its relative path and
every directory entry is walked recursively. -/
def walkNode (sep : Char) : FSNode → String → List String
  | .file _ _, _ => []
  | .dir none, _ => []
  | .dir (some entries), pre => walkEntries sep entries pre

/-- The `for (const entry of entries)` loop body of `walkDir`. -/
def walkEntries (sep : Char) : List (String × FSNode) → String → List String
  | [], _ => []
  | (name, .file t s) :: rest, pre =>
      joinRel sep pre name :: walkEntries sep rest pre
  | (name, .dir l) :: rest, pre =>
      walkNode sep (.dir l) (joinRel sep pre name) ++ walkEntries sep rest pre

end

/-- UTF-16 code units of a character (JavaScript strings are UTF-16;
the default `Array.prototype.sort` compares strings by code units). -/
def utf16Units (c : Char) : List Nat :=
  if c.toNat < 0x10000 then [c.toNat]
  else [0xD800 + (c.toNat - 0x10000) / 0x400, 0xDC00 + (c.toNat - 0x10000) % 0x400]

/-- UTF-16 code-unit sequence of a string. -/
def utf16Key (s : String) : List Nat :=
  s.data.flatMap utf16Units

/-- Lexicographic comparison of code-unit sequences. -/
def unitsLe : List Nat → List Nat → Bool
  | _ :: _, [] => false
  | [], _ => true
  | x :: xs, y :: ys =>
    if x < y then true
    else if y < x then false
    else unitsLe xs ys

/-- Ordering used by the comparator-less `files.sort()` in `getPluginFiles`:
The default JavaScript sort converts elements to strings and compares UTF-16
code-unit sequences. -/
def jsStringLe (a b : String) : Prop := unitsLe (utf16Key a) (utf16Key b) = true

instance : DecidableRel jsStringLe := fun a b =>
  inferInstanceAs (Decidable (_ = true))

/-- The enumerator `getPluginFiles`: walk the root with an empty relative
prefix, then `files.sort()`. -/
def getPluginFiles (sep : Char) (pluginPath : FSNode) : List String :=
  List.insertionSort jsStringLe (walkNode sep pluginPath "")

/-- Splitting of a character list at a separator character (used to model
how the filesystem resolves the path strings `path.join(root, file)` that
the comparator hands to `readFile`/`stat`). -/
def splitCharList (sep : Char) : List Char → List (List Char)
  | [] => [[]]
  | c :: cs =>
    match splitCharList sep cs with
    | [] => [[]]
    | seg :: rest => if c = sep then [] :: seg :: rest else (c :: seg) :: rest

/-- Path segments of a relative path string. -/
def splitPath (sep : Char) (s : String) : List String :=
  (splitCharList sep s.data).map String.mk

/-- Directory-listing lookup by entry name. -/
def findEntry (name : String) : List (String × FSNode) → Option FSNode
  | [] => none
  | (n, node) :: rest => if n = name then some node else findEntry name rest

/-- Resolution of a segment chain against a filesystem node. -/
def resolve : List String → FSNode → Option FSNode
  | [], node => some node
  | seg :: rest, node =>
    match node with
    | .dir (some entries) =>
      match findEntry seg entries with
      | some child => resolve rest child
      | none => none
    | _ => none

/-- Model of `fs.readFile` at `path.join(root, relPath)` with utf-8 decoding: `some` the
decoded text on success, `none` when the promise rejects (missing file,
binary/undecodable content, read error). -/
def readFileUtf8 (root : FSNode) (sep : Char) (relPath : String) : Option String :=
  match resolve (splitPath sep relPath) root with
  | some (.file text _) => text
  | _ => none

/-- The getFileSize of the source: `fs.stat` wrapped in try/catch, `undefined`
(here `none`) when the stat fails. -/
def getFileSize (root : FSNode) (sep : Char) (relPath : String) : Option Nat :=
  match resolve (splitPath sep relPath) root with
  | some (.file _ size) => size
  | _ => none

/-- Three-way comparison of character lists by code point. -/
def lcChars : List Char → List Char → Int
  | [], [] => 0
  | [], _ :: _ => -1
  | _ :: _, [] => 1
  | a :: as, b :: bs =>
    if a.toNat < b.toNat then -1
    else if b.toNat < a.toNat then 1
    else lcChars as bs

/-- Modelled from the spec: `String.prototype.localeCompare` is a host
(ICU) function, not part of the sources of this repository.  The spec calls the
resulting order "locale-aware ... non-decreasing lexicographic order"; it
is modelled here as code-point lexicographic comparison, returning a
negative, zero or positive number as `localeCompare` does. -/
def localeCompare (a b : String) : Int := lcChars a.data b.data

/-- Status of one file comparison (`FileComparison.status` in the source). -/
inductive FileStatus where
  | identical
  | different
  | local_only
  | remote_only
deriving DecidableEq, Repr

/-- The `FileComparison` interface: optional fields of the TypeScript
object are `Option`s (`none` = the key is absent / `undefined`). -/
structure FileComparison where
  file : String
  status : FileStatus
  diff : Option String := none
  localSize : Option Nat := none
  remoteSize : Option Nat := none
deriving DecidableEq, Repr

/-- The `summary` object of `PluginComparison`. -/
structure ComparisonSummary where
  identical : Nat
  different : Nat
  localOnly : Nat
  remoteOnly : Nat
  total : Nat
deriving DecidableEq, Repr

/-- The `PluginComparison` interface. -/
structure PluginComparison where
  localPath : String
  remotePath : String
  files : List FileComparison
  summary : ComparisonSummary
deriving DecidableEq, Repr

/-- Lines of a string, split at newline characters. -/
def splitLines (s : String) : List String :=
  (splitCharList (Char.ofNat 10) s.data).map String.mk

/-- Separator line of the unified-diff header (67 equals signs). -/
def patchSeparatorLine : String :=
  String.mk (List.replicate 67 (Char.ofNat 61)) ++ "\n"

/-- Modelled from the spec: `diff.createPatch` comes from the external
`diff` npm package, not from the sources of this repository.  Per the spec, it
produces "a unified-diff text body" whose from side is `oldStr` and whose
to side is `newStr`, using `fileName` as the diffed filename and labelling
the two sides with `oldHeader` and `newHeader`; the body marks removed
lines (from the old text) with `-` and added lines (from the new text)
with `+`. -/
def createPatch (fileName oldStr newStr oldHeader newHeader : String) : String :=
  "Index: " ++ fileName ++ "\n" ++
  patchSeparatorLine ++
  "--- " ++ fileName ++ "\t" ++ oldHeader ++ "\n" ++
  "+++ " ++ fileName ++ "\t" ++ newHeader ++ "\n" ++
  String.join ((splitLines oldStr).map (fun l => "-" ++ l ++ "\n")) ++
  String.join ((splitLines newStr).map (fun l => "+" ++ l ++ "\n"))

/-- The compareFiles function of the source: try to read both sides as text (the
`Promise.all` rejects when either read fails, landing in the catch
branch); on success compare contents, otherwise fall back to comparing the
best-effort sizes (`undefined === undefined` holds, so two failed stats
compare equal). -/
def compareFiles (localRoot remoteRoot : FSNode) (sep : Char)
    (localFilePath remoteFilePath fileName : String) : FileComparison :=
  match readFileUtf8 localRoot sep localFilePath, readFileUtf8 remoteRoot sep remoteFilePath with
  | some localContent, some remoteContent =>
    let localSize := getFileSize localRoot sep localFilePath
    let remoteSize := getFileSize remoteRoot sep remoteFilePath
    if localContent = remoteContent then
      { file := fileName, status := .identical, localSize := localSize, remoteSize := remoteSize }
    else
      { file := fileName, status := .different,
        diff := some (createPatch fileName remoteContent localContent "WordPress.org" "Local"),
        localSize := localSize, remoteSize := remoteSize }
  | _, _ =>
    let localSize := getFileSize localRoot sep localFilePath
    let remoteSize := getFileSize remoteRoot sep remoteFilePath
    { file := fileName,
      status := if localSize = remoteSize then .identical else .different,
      localSize := localSize, remoteSize := remoteSize }

/-- JavaScript `new Set(list)` materialised as a list: membership-tested
insertion preserving first-occurrence order. -/
def jsSetOfList (l : List String) : List String :=
  l.foldl (fun acc x => if x ∈ acc then acc else acc ++ [x]) []

/-- Mutable state of the `for (const file of allFiles)` loop in
`comparePlugins`: the growing `comparisons` array and the four counters. -/
structure LoopState where
  comparisons : List FileComparison
  identical : Nat
  different : Nat
  localOnly : Nat
  remoteOnly : Nat
deriving Repr

/-- One iteration of the `comparePlugins` loop: classify `file` by
membership in the two enumerations (`localFiles.includes(file)`), push the
resulting `FileComparison` and bump the matching counter. -/
def compareStep (localRoot remoteRoot : FSNode) (sep : Char)
    (localFiles remoteFiles : List String) (st : LoopState) (file : String) : LoopState :=
  if file ∉ localFiles then
    { st with
      comparisons := st.comparisons ++
        [{ file := file, status := .remote_only, remoteSize := getFileSize remoteRoot sep file }],
      remoteOnly := st.remoteOnly + 1 }
  else if file ∉ remoteFiles then
    { st with
      comparisons := st.comparisons ++
        [{ file := file, status := .local_only, localSize := getFileSize localRoot sep file }],
      localOnly := st.localOnly + 1 }
  else
    let comparison := compareFiles localRoot remoteRoot sep file file file
    if comparison.status = .identical then
      { st with comparisons := st.comparisons ++ [comparison], identical := st.identical + 1 }
    else
      { st with comparisons := st.comparisons ++ [comparison], different := st.different + 1 }

/-- The entry `comparePlugins` produces for a given union element: a pure
restatement of the value pushed by one `compareStep` iteration, used to state
and prove per-entry properties. -/
def classifyFile (localRoot remoteRoot : FSNode) (sep : Char)
    (localFiles remoteFiles : List String) (file : String) : FileComparison :=
  if file ∉ localFiles then
    { file := file, status := .remote_only, remoteSize := getFileSize remoteRoot sep file }
  else if file ∉ remoteFiles then
    { file := file, status := .local_only, localSize := getFileSize localRoot sep file }
  else
    compareFiles localRoot remoteRoot sep file file file

/-- The comparePlugins function of the source: enumerate both roots, form the set
union, classify every union element while counting, then return the
result with the comparisons sorted by `a.file.localeCompare(b.file)`
(the JavaScript sort is stable; a stable sort by a consistent comparator is
insertion sort) and `total` set to the size of the union. -/
def comparePlugins (sep : Char) (localPluginPath remotePluginPath : String)
    (localRoot remoteRoot : FSNode) : PluginComparison :=
  let localFiles := getPluginFiles sep localRoot
  let remoteFiles := getPluginFiles sep remoteRoot
  let allFiles := jsSetOfList (localFiles ++ remoteFiles)
  let st := allFiles.foldl (compareStep localRoot remoteRoot sep localFiles remoteFiles)
    { comparisons := [], identical := 0, different := 0, localOnly := 0, remoteOnly := 0 }
  { localPath := localPluginPath,
    remotePath := remotePluginPath,
    files := List.insertionSort (fun a b => localeCompare a.file b.file ≤ 0) st.comparisons,
    summary := { identical := st.identical, different := st.different,
                 localOnly := st.localOnly, remoteOnly := st.remoteOnly,
                 total := allFiles.length } }

/-- JavaScript `String.prototype.padStart(n)` with the default space pad. -/
def padStart (s : String) (n : Nat) : String :=
  if s.length < n then String.mk (List.replicate (n - s.length) ' ') ++ s else s

/-- The formatComparisonSummary function of the source, mirroring its sequence of
`output += ...` statements. -/
def formatComparisonSummary (comparison : PluginComparison) : String :=
  let summary := comparison.summary
  let output := "Plugin Comparison Summary\n"
  let output := output ++ "=========================\n\n"
  let output := output ++ ("Local:  " ++ comparison.localPath ++ "\n")
  let output := output ++ ("Remote: " ++ comparison.remotePath ++ "\n\n")
  let output := output ++ "Files Analysis:\n"
  let output := output ++ ("- Identical:   " ++ padStart (toString summary.identical) 3 ++ " files\n")
  let output := output ++ ("- Different:   " ++ padStart (toString summary.different) 3 ++ " files\n")
  let output := output ++ ("- Local only:  " ++ padStart (toString summary.localOnly) 3 ++ " files\n")
  let output := output ++ ("- Remote only: " ++ padStart (toString summary.remoteOnly) 3 ++ " files\n")
  let output := output ++ ("- Total:       " ++ padStart (toString summary.total) 3 ++ " files\n\n")
  let output := if summary.different > 0 then
      ((comparison.files.filter (fun f => decide (f.status = .different))).foldl
        (fun o f => o ++ ("- " ++ f.file ++ "\n")) (output ++ "Different Files:\n")) ++ "\n"
    else output
  let output := if summary.localOnly > 0 then
      ((comparison.files.filter (fun f => decide (f.status = .local_only))).foldl
        (fun o f => o ++ ("- " ++ f.file ++ "\n")) (output ++ "Local Only Files:\n")) ++ "\n"
    else output
  let output := if summary.remoteOnly > 0 then
      ((comparison.files.filter (fun f => decide (f.status = .remote_only))).foldl
        (fun o f => o ++ ("- " ++ f.file ++ "\n")) (output ++ "Remote Only Files:\n")) ++ "\n"
    else output
  output

/-- Spec-side reachability: `ReachesFile root segs` holds when following
the chain of entry names `segs` from `root` through readable directory
listings ends at a non-directory entry.  This is the spec "complete set
of relative file paths (not directories) reachable under it, recursively"
(failed directory reads contribute nothing). -/
inductive ReachesFile : FSNode → List String → Prop
  | head {entries : List (String × FSNode)} {name : String} {t : Option String} {s : Option Nat}
      (h : (name, FSNode.file t s) ∈ entries) : ReachesFile (.dir (some entries)) [name]
  | nest {entries : List (String × FSNode)} {name : String} {child : FSNode} {segs : List String}
      (h : (name, child) ∈ entries) (hc : ReachesFile child segs) :
      ReachesFile (.dir (some entries)) (name :: segs)

/-- One listed path line of the report, as the spec words it:
"Each listed line is `- <path>`." -/
def specFileLine (p : String) : String := "- " ++ p ++ "\n"

/-- One conditional report section, as the spec words it: "only emitted
when their count > 0", a title line followed by one line per listed path
(the formatter leaves a blank line after each emitted section). -/
def specSection (count : Nat) (titleLine : String) (paths : List String) : String :=
  if count > 0 then titleLine ++ String.join (paths.map specFileLine) ++ "\n" else ""

/-- Relative paths of the entries of `c` carrying status `s`, in order. -/
def specStatusPaths (c : PluginComparison) (s : FileStatus) : List String :=
  (c.files.filter (fun f => decide (f.status = s))).map FileComparison.file

/-- The fixed part of the report: header lines identifying the two roots and
the fixed-order statistics block with counts right-aligned (width 3). -/
def specReportHeader (c : PluginComparison) : String :=
  "Plugin Comparison Summary\n" ++
  "=========================\n\n" ++
  "Local:  " ++ c.localPath ++ "\n" ++
  "Remote: " ++ c.remotePath ++ "\n\n" ++
  "Files Analysis:\n" ++
  "- Identical:   " ++ padStart (toString c.summary.identical) 3 ++ " files\n" ++
  "- Different:   " ++ padStart (toString c.summary.different) 3 ++ " files\n" ++
  "- Local only:  " ++ padStart (toString c.summary.localOnly) 3 ++ " files\n" ++
  "- Remote only: " ++ padStart (toString c.summary.remoteOnly) 3 ++ " files\n" ++
  "- Total:       " ++ padStart (toString c.summary.total) 3 ++ " files\n\n"

/-- The report as §4.3 of the spec describes it: the fixed part, then the
three conditional sections in the fixed order Different, Local Only,
Remote Only, each present exactly when its summary count is positive; no
section for identical files. -/
def specReport (c : PluginComparison) : String :=
  specReportHeader c
  ++ specSection c.summary.different "Different Files:\n" (specStatusPaths c .different)
  ++ specSection c.summary.localOnly "Local Only Files:\n" (specStatusPaths c .local_only)
  ++ specSection c.summary.remoteOnly "Remote Only Files:\n" (specStatusPaths c .remote_only)

/-- Concrete local root used by witnesses: a text file shared with the
remote root, a text file that differs, binary (unreadable) files with
equal and with differing sizes, an unreadable file whose stat also fails
on both sides, one whose stat fails on the remote side only, and a file
present only locally. -/
def sampleLocalRoot : FSNode := .dir (some [
  ("main.php", .file (some "same") (some 4)),
  ("diff.php", .file (some "local") (some 5)),
  ("bin.same", .file none (some 2)),
  ("bin.diff", .file none (some 2)),
  ("ghost.bin", .file none none),
  ("half.bin", .file none (some 7)),
  ("local.txt", .file (some "x") (some 1))])

/-- Concrete remote root paired with `sampleLocalRoot`. -/
def sampleRemoteRoot : FSNode := .dir (some [
  ("main.php", .file (some "same") (some 4)),
  ("diff.php", .file (some "remote") (some 6)),
  ("bin.same", .file none (some 2)),
  ("bin.diff", .file none (some 3)),
  ("ghost.bin", .file none none),
  ("half.bin", .file none none),
  ("remote.txt", .file (some "y") (some 1))])

/-- Local root whose single file is readable as text but not statable
(e.g. the file was unlinked between the read and the stat). -/
def statFailLocalRoot : FSNode := .dir (some [("main.php", .file (some "A") none)])

/-- Remote root paired with `statFailLocalRoot`: same path, different
readable text, statable. -/
def statFailRemoteRoot : FSNode := .dir (some [("main.php", .file (some "B") (some 1))])

/-- Root with one file inside a subdirectory, for exercising separator
handling in the enumerator. -/
def nestedRoot : FSNode := .dir (some [
  ("inc", .dir (some [("h.php", .file (some "x") (some 1))]))])

/-- Any child node listed in a directory is structurally smaller than the
directory node. -/
theorem sizeOf_child_lt {entries : List (String × FSNode)} {name : String} {child : FSNode}
    (h : (name, child) ∈ entries) : sizeOf child < sizeOf (FSNode.dir (some entries)) := by
  have h1 := List.sizeOf_lt_of_mem h
  simp only [Prod.mk.sizeOf_spec] at h1
  simp only [FSNode.dir.sizeOf_spec, Option.some.sizeOf_spec]
  omega

/-- Walking a non-directory root yields no files (readdir throws, the
catch swallows it). -/
theorem walkNode_file (sep : Char) (t : Option String) (s : Option Nat) (pre : String) :
    walkNode sep (FSNode.file t s) pre = [] := rfl

/-- Unfolding of membership in the entry loop of `walkDir`: a path comes
either from a non-directory entry or from the recursive walk of a
directory entry. -/
theorem mem_walkEntries_iff (sep : Char) (entries : List (String × FSNode)) (pre f : String) :
    f ∈ walkEntries sep entries pre ↔
      ∃ name child, (name, child) ∈ entries ∧
        (((∃ t s, child = FSNode.file t s) ∧ f = joinRel sep pre name) ∨
         f ∈ walkNode sep child (joinRel sep pre name)) := by
  induction entries with
  | nil => simp [walkEntries]
  | cons e rest ih =>
    obtain ⟨name, child⟩ := e
    cases child with
    | file t s =>
      simp only [walkEntries, List.mem_cons, ih]
      constructor
      · rintro (rfl | ⟨n, c, hm, hd⟩)
        · exact ⟨name, .file t s, .inl rfl, .inl ⟨⟨t, s, rfl⟩, rfl⟩⟩
        · exact ⟨n, c, .inr hm, hd⟩
      · rintro ⟨n, c, (hm | hm), hd⟩
        · injection hm with hn hc
          subst hn; subst hc
          rcases hd with ⟨_, rfl⟩ | hd
          · exact .inl rfl
          · rw [walkNode_file] at hd; cases hd
        · exact .inr ⟨n, c, hm, hd⟩
    | dir l =>
      simp only [walkEntries, List.mem_append, List.mem_cons, ih]
      constructor
      · rintro (hw | ⟨n, c, hm, hd⟩)
        · exact ⟨name, .dir l, .inl rfl, .inr hw⟩
        · exact ⟨n, c, .inr hm, hd⟩
      · rintro ⟨n, c, (hm | hm), hd⟩
        · injection hm with hn hc
          subst hn; subst hc
          rcases hd with ⟨⟨t, s, hts⟩, _⟩ | hd
          · cases hts
          · exact .inl hd
        · exact .inr ⟨n, c, hm, hd⟩

/-- The walk of `walkDir` produces exactly the separator-joined name
chains of the files reachable through readable directory listings. -/
theorem mem_walkNode_iff (sep : Char) : (node : FSNode) → (pre f : String) →
    (f ∈ walkNode sep node pre ↔
      ∃ segs, ReachesFile node segs ∧ f = segs.foldl (joinRel sep) pre)
  | .file t s, pre, f => by
    constructor
    · intro h; rw [walkNode_file] at h; cases h
    · rintro ⟨segs, hr, _⟩; cases hr
  | .dir none, pre, f => by
    constructor
    · intro h; cases h
    · rintro ⟨segs, hr, _⟩; cases hr
  | .dir (some entries), pre, f => by
    show f ∈ walkEntries sep entries pre ↔ _
    rw [mem_walkEntries_iff]
    constructor
    · rintro ⟨name, child, hm, hd⟩
      rcases hd with ⟨⟨t, s, rfl⟩, rfl⟩ | hd
      · exact ⟨[name], .head hm, rfl⟩
      · have hlt := sizeOf_child_lt hm
        rw [mem_walkNode_iff sep child (joinRel sep pre name) f] at hd
        obtain ⟨segs, hr, rfl⟩ := hd
        exact ⟨name :: segs, .nest hm hr, rfl⟩
    · rintro ⟨segs, hr, rfl⟩
      cases hr with
      | head hm => exact ⟨_, _, hm, .inl ⟨⟨_, _, rfl⟩, rfl⟩⟩
      | nest hm hc =>
        rename_i ename echild esegs
        have hlt := sizeOf_child_lt hm
        refine ⟨ename, echild, hm, .inr ?_⟩
        rw [List.foldl_cons, mem_walkNode_iff sep echild (joinRel sep pre ename)
          (esegs.foldl (joinRel sep) (joinRel sep pre ename))]
        exact ⟨esegs, hc, rfl⟩
termination_by node => sizeOf node
decreasing_by all_goals (simp_wf; subst_vars; simp only [FSNode.dir.sizeOf_spec, Option.some.sizeOf_spec] at hlt; omega)

/-- Membership in the sorted enumerator output is membership in the walk. -/
theorem mem_getPluginFiles_iff (sep : Char) (root : FSNode) (f : String) :
    f ∈ getPluginFiles sep root ↔
      ∃ segs, ReachesFile root segs ∧ f = segs.foldl (joinRel sep) "" := by
  rw [getPluginFiles, List.mem_insertionSort, mem_walkNode_iff]

/-- The fold underlying `jsSetOfList` only grows its accumulator by
elements of the folded list, keeping it duplicate-free. -/
theorem jsSetFold_nodup : ∀ (l acc : List String), acc.Nodup →
    (l.foldl (fun acc x => if x ∈ acc then acc else acc ++ [x]) acc).Nodup := by
  intro l
  induction l with
  | nil => intro acc h; exact h
  | cons x xs ih =>
    intro acc h
    simp only [List.foldl_cons]
    by_cases hx : x ∈ acc
    · rw [if_pos hx]; exact ih acc h
    · rw [if_neg hx]
      refine ih _ ?_
      rw [List.nodup_append]
      exact ⟨h, List.nodup_singleton x, by simpa using hx⟩

/-- Membership characterisation of the `jsSetOfList` fold. -/
theorem mem_jsSetFold : ∀ (l acc : List String) (y : String),
    y ∈ l.foldl (fun acc x => if x ∈ acc then acc else acc ++ [x]) acc ↔ y ∈ acc ∨ y ∈ l := by
  intro l
  induction l with
  | nil => simp
  | cons x xs ih =>
    intro acc y
    simp only [List.foldl_cons, List.mem_cons]
    by_cases hx : x ∈ acc
    · rw [if_pos hx, ih]
      constructor
      · rintro (h | h)
        · exact .inl h
        · exact .inr (.inr h)
      · rintro (h | rfl | h)
        · exact .inl h
        · exact .inl hx
        · exact .inr h
    · rw [if_neg hx, ih]
      simp only [List.mem_append, List.mem_singleton]
      tauto

/-- `new Set(l)` has no duplicates. -/
theorem jsSetOfList_nodup (l : List String) : (jsSetOfList l).Nodup :=
  jsSetFold_nodup l [] List.nodup_nil

/-- `new Set(l)` has the same members as `l`. -/
theorem mem_jsSetOfList (l : List String) (y : String) : y ∈ jsSetOfList l ↔ y ∈ l := by
  rw [jsSetOfList, mem_jsSetFold]; simp

/-- The size of `new Set(l)` is the number of distinct elements of `l`. -/
theorem jsSetOfList_length (l : List String) : (jsSetOfList l).length = l.toFinset.card := by
  have hext : (jsSetOfList l).toFinset = l.toFinset := by
    ext x
    simp only [List.mem_toFinset]
    exact mem_jsSetOfList l x
  rw [← hext, List.toFinset_card_of_nodup (jsSetOfList_nodup l)]

theorem compareFiles_file (lr rr : FSNode) (sep : Char) (p q n : String) :
    (compareFiles lr rr sep p q n).file = n := by
  unfold compareFiles
  cases readFileUtf8 lr sep p <;> cases readFileUtf8 rr sep q <;> dsimp only <;>
    (try rfl) <;> split <;> rfl

theorem compareFiles_status (lr rr : FSNode) (sep : Char) (p q n : String) :
    (compareFiles lr rr sep p q n).status = .identical ∨
    (compareFiles lr rr sep p q n).status = .different := by
  unfold compareFiles
  cases readFileUtf8 lr sep p <;> cases readFileUtf8 rr sep q <;> dsimp only <;>
    split <;> simp

theorem classifyFile_file (lr rr : FSNode) (sep : Char) (lf rf : List String) (f : String) :
    (classifyFile lr rr sep lf rf f).file = f := by
  unfold classifyFile
  split
  · rfl
  · split
    · rfl
    · exact compareFiles_file lr rr sep f f f

theorem compareStep_comparisons (lr rr : FSNode) (sep : Char) (lf rf : List String)
    (st : LoopState) (f : String) :
    (compareStep lr rr sep lf rf st f).comparisons
      = st.comparisons ++ [classifyFile lr rr sep lf rf f] := by
  unfold compareStep classifyFile
  split_ifs with h1 h2 <;>
    first
    | rfl
    | (dsimp only; split <;> rfl)

theorem compareStep_identical (lr rr : FSNode) (sep : Char) (lf rf : List String)
    (st : LoopState) (f : String) :
    (compareStep lr rr sep lf rf st f).identical
      = st.identical +
        (if (classifyFile lr rr sep lf rf f).status = FileStatus.identical then 1 else 0) := by
  unfold compareStep classifyFile
  split_ifs with h1 h2 h3 <;> simp_all

theorem compareStep_different (lr rr : FSNode) (sep : Char) (lf rf : List String)
    (st : LoopState) (f : String) :
    (compareStep lr rr sep lf rf st f).different
      = st.different +
        (if (classifyFile lr rr sep lf rf f).status = FileStatus.different then 1 else 0) := by
  have hcs := compareFiles_status lr rr sep f f f
  unfold compareStep classifyFile
  rcases hcs with h | h <;> split_ifs <;> simp_all

theorem compareStep_localOnly (lr rr : FSNode) (sep : Char) (lf rf : List String)
    (st : LoopState) (f : String) :
    (compareStep lr rr sep lf rf st f).localOnly
      = st.localOnly +
        (if (classifyFile lr rr sep lf rf f).status = FileStatus.local_only then 1 else 0) := by
  have hcs := compareFiles_status lr rr sep f f f
  unfold compareStep classifyFile
  rcases hcs with h | h <;> split_ifs <;> simp_all

theorem compareStep_remoteOnly (lr rr : FSNode) (sep : Char) (lf rf : List String)
    (st : LoopState) (f : String) :
    (compareStep lr rr sep lf rf st f).remoteOnly
      = st.remoteOnly +
        (if (classifyFile lr rr sep lf rf f).status = FileStatus.remote_only then 1 else 0) := by
  have hcs := compareFiles_status lr rr sep f f f
  unfold compareStep classifyFile
  rcases hcs with h | h <;> split_ifs <;> simp_all

theorem foldl_compareStep_comparisons (lr rr : FSNode) (sep : Char) (lf rf : List String) :
    ∀ (L : List String) (st : LoopState),
    (L.foldl (compareStep lr rr sep lf rf) st).comparisons
      = st.comparisons ++ L.map (classifyFile lr rr sep lf rf) := by
  intro L
  induction L with
  | nil => intro st; simp
  | cons x xs ih =>
    intro st
    rw [List.foldl_cons, ih, compareStep_comparisons, List.map_cons, List.append_assoc,
      List.singleton_append]

theorem foldl_compareStep_identical (lr rr : FSNode) (sep : Char) (lf rf : List String) :
    ∀ (L : List String) (st : LoopState),
    (L.foldl (compareStep lr rr sep lf rf) st).identical
      = st.identical + (L.map (classifyFile lr rr sep lf rf)).countP
          (fun c => decide (c.status = FileStatus.identical)) := by
  intro L
  induction L with
  | nil => intro st; simp
  | cons x xs ih =>
    intro st
    rw [List.foldl_cons, ih, compareStep_identical, List.map_cons, List.countP_cons]
    simp only [decide_eq_true_eq]
    split_ifs <;> omega

theorem foldl_compareStep_different (lr rr : FSNode) (sep : Char) (lf rf : List String) :
    ∀ (L : List String) (st : LoopState),
    (L.foldl (compareStep lr rr sep lf rf) st).different
      = st.different + (L.map (classifyFile lr rr sep lf rf)).countP
          (fun c => decide (c.status = FileStatus.different)) := by
  intro L
  induction L with
  | nil => intro st; simp
  | cons x xs ih =>
    intro st
    rw [List.foldl_cons, ih, compareStep_different, List.map_cons, List.countP_cons]
    simp only [decide_eq_true_eq]
    split_ifs <;> omega

theorem foldl_compareStep_localOnly (lr rr : FSNode) (sep : Char) (lf rf : List String) :
    ∀ (L : List String) (st : LoopState),
    (L.foldl (compareStep lr rr sep lf rf) st).localOnly
      = st.localOnly + (L.map (classifyFile lr rr sep lf rf)).countP
          (fun c => decide (c.status = FileStatus.local_only)) := by
  intro L
  induction L with
  | nil => intro st; simp
  | cons x xs ih =>
    intro st
    rw [List.foldl_cons, ih, compareStep_localOnly, List.map_cons, List.countP_cons]
    simp only [decide_eq_true_eq]
    split_ifs <;> omega

theorem foldl_compareStep_remoteOnly (lr rr : FSNode) (sep : Char) (lf rf : List String) :
    ∀ (L : List String) (st : LoopState),
    (L.foldl (compareStep lr rr sep lf rf) st).remoteOnly
      = st.remoteOnly + (L.map (classifyFile lr rr sep lf rf)).countP
          (fun c => decide (c.status = FileStatus.remote_only)) := by
  intro L
  induction L with
  | nil => intro st; simp
  | cons x xs ih =>
    intro st
    rw [List.foldl_cons, ih, compareStep_remoteOnly, List.map_cons, List.countP_cons]
    simp only [decide_eq_true_eq]
    split_ifs <;> omega

theorem comparePlugins_files (sep : Char) (lp rp : String) (lr rr : FSNode) :
    (comparePlugins sep lp rp lr rr).files
      = List.insertionSort (fun a b => localeCompare a.file b.file ≤ 0)
          ((jsSetOfList (getPluginFiles sep lr ++ getPluginFiles sep rr)).map
            (classifyFile lr rr sep (getPluginFiles sep lr) (getPluginFiles sep rr))) := by
  unfold comparePlugins
  dsimp only
  rw [foldl_compareStep_comparisons]
  rfl

theorem comparePlugins_summary (sep : Char) (lp rp : String) (lr rr : FSNode) :
    (comparePlugins sep lp rp lr rr).summary =
      { identical := ((jsSetOfList (getPluginFiles sep lr ++ getPluginFiles sep rr)).map
            (classifyFile lr rr sep (getPluginFiles sep lr) (getPluginFiles sep rr))).countP
            (fun c => decide (c.status = FileStatus.identical)),
        different := ((jsSetOfList (getPluginFiles sep lr ++ getPluginFiles sep rr)).map
            (classifyFile lr rr sep (getPluginFiles sep lr) (getPluginFiles sep rr))).countP
            (fun c => decide (c.status = FileStatus.different)),
        localOnly := ((jsSetOfList (getPluginFiles sep lr ++ getPluginFiles sep rr)).map
            (classifyFile lr rr sep (getPluginFiles sep lr) (getPluginFiles sep rr))).countP
            (fun c => decide (c.status = FileStatus.local_only)),
        remoteOnly := ((jsSetOfList (getPluginFiles sep lr ++ getPluginFiles sep rr)).map
            (classifyFile lr rr sep (getPluginFiles sep lr) (getPluginFiles sep rr))).countP
            (fun c => decide (c.status = FileStatus.remote_only)),
        total := (jsSetOfList (getPluginFiles sep lr ++ getPluginFiles sep rr)).length } := by
  unfold comparePlugins
  dsimp only
  rw [foldl_compareStep_identical, foldl_compareStep_different, foldl_compareStep_localOnly,
    foldl_compareStep_remoteOnly]
  simp

/-- Exactly one of the four statuses holds per entry, so the four status
counts of any entry list sum to its length. -/
theorem countP_status_sum : ∀ (L : List FileComparison),
    L.countP (fun c => decide (c.status = FileStatus.identical))
      + L.countP (fun c => decide (c.status = FileStatus.different))
      + L.countP (fun c => decide (c.status = FileStatus.local_only))
      + L.countP (fun c => decide (c.status = FileStatus.remote_only))
      = L.length := by
  intro L
  induction L with
  | nil => simp
  | cons c cs ih =>
    simp only [List.countP_cons, List.length_cons]
    rcases hs : c.status <;> simp [hs] <;> omega

theorem lcChars_swap : ∀ (a b : List Char), lcChars b a = - lcChars a b := by
  intro a
  induction a with
  | nil => intro b; cases b <;> simp [lcChars]
  | cons x xs ih =>
    intro b
    cases b with
    | nil => simp [lcChars]
    | cons y ys =>
      simp only [lcChars]
      split_ifs <;> first | omega | exact ih ys

theorem lcChars_le_trans : ∀ (a b c : List Char),
    lcChars a b ≤ 0 → lcChars b c ≤ 0 → lcChars a c ≤ 0 := by
  intro a
  induction a with
  | nil =>
    intro b c hab hbc
    cases c <;> simp [lcChars]
  | cons x xs ih =>
    intro b c hab hbc
    cases b with
    | nil => simp [lcChars] at hab
    | cons y ys =>
      cases c with
      | nil => simp [lcChars] at hbc
      | cons z zs =>
        simp only [lcChars] at hab hbc ⊢
        split_ifs at hab hbc ⊢ <;> first | omega | exact ih ys zs hab hbc

theorem localeCompare_total (a b : String) : localeCompare a b ≤ 0 ∨ localeCompare b a ≤ 0 := by
  unfold localeCompare
  rcases le_or_lt (lcChars a.data b.data) 0 with h | h
  · exact .inl h
  · right; rw [lcChars_swap]; omega

theorem localeCompare_trans {a b c : String} (h1 : localeCompare a b ≤ 0)
    (h2 : localeCompare b c ≤ 0) : localeCompare a c ≤ 0 :=
  lcChars_le_trans a.data b.data c.data h1 h2

theorem map_file_map_classify (lr rr : FSNode) (sep : Char) (lf rf : List String) :
    ∀ (L : List String),
    (L.map (classifyFile lr rr sep lf rf)).map FileComparison.file = L := by
  intro L
  induction L with
  | nil => rfl
  | cons x xs ih => simp [classifyFile_file, ih]

theorem mem_comparePlugins_files (sep : Char) (lp rp : String) (lr rr : FSNode)
    (c : FileComparison) :
    c ∈ (comparePlugins sep lp rp lr rr).files ↔
      ∃ f, f ∈ jsSetOfList (getPluginFiles sep lr ++ getPluginFiles sep rr) ∧
        c = classifyFile lr rr sep (getPluginFiles sep lr) (getPluginFiles sep rr) f := by
  rw [comparePlugins_files, List.mem_insertionSort, List.mem_map]
  constructor
  · rintro ⟨f, hm, rfl⟩; exact ⟨f, hm, rfl⟩
  · rintro ⟨f, hm, rfl⟩; exact ⟨f, hm, rfl⟩

/-- C1: for every pair of roots, `summary.total` equals the sum of the
four status counts, and equals the number of distinct relative paths
across the two enumerated trees. -/
theorem C1_summary_total_invariant (sep : Char) (lp rp : String) (lr rr : FSNode) :
    (comparePlugins sep lp rp lr rr).summary.total
        = (comparePlugins sep lp rp lr rr).summary.identical
          + (comparePlugins sep lp rp lr rr).summary.different
          + (comparePlugins sep lp rp lr rr).summary.localOnly
          + (comparePlugins sep lp rp lr rr).summary.remoteOnly
    ∧ (comparePlugins sep lp rp lr rr).summary.total
        = (getPluginFiles sep lr ++ getPluginFiles sep rr).toFinset.card := by
  rw [comparePlugins_summary]
  constructor
  · dsimp only
    rw [countP_status_sum, List.length_map]
  · dsimp only
    rw [jsSetOfList_length]

/-- C2: the `files` sequence is sorted by the `file` field in
non-decreasing `localeCompare` order, and no two entries share a path. -/
theorem C2_files_sorted_nodup (sep : Char) (lp rp : String) (lr rr : FSNode) :
    List.Sorted (fun a b : FileComparison => localeCompare a.file b.file ≤ 0)
      (comparePlugins sep lp rp lr rr).files
    ∧ ((comparePlugins sep lp rp lr rr).files.map FileComparison.file).Nodup := by
  constructor
  · rw [comparePlugins_files]
    haveI : IsTotal FileComparison (fun a b => localeCompare a.file b.file ≤ 0) :=
      ⟨fun a b => localeCompare_total a.file b.file⟩
    haveI : IsTrans FileComparison (fun a b => localeCompare a.file b.file ≤ 0) :=
      ⟨fun a b c => localeCompare_trans⟩
    exact List.sorted_insertionSort _ _
  · have h1 : List.Perm (comparePlugins sep lp rp lr rr).files
        ((jsSetOfList (getPluginFiles sep lr ++ getPluginFiles sep rr)).map
          (classifyFile lr rr sep (getPluginFiles sep lr) (getPluginFiles sep rr))) := by
      rw [comparePlugins_files]
      exact List.perm_insertionSort _ _
    have h2 := h1.map FileComparison.file
    rw [map_file_map_classify] at h2
    exact h2.nodup_iff.mpr
      (jsSetOfList_nodup (getPluginFiles sep lr ++ getPluginFiles sep rr))

theorem entry_for_mem (sep : Char) (lp rp : String) (lr rr : FSNode) {f : String}
    {c : FileComparison} (hc : c ∈ (comparePlugins sep lp rp lr rr).files) (hf : c.file = f) :
    c = classifyFile lr rr sep (getPluginFiles sep lr) (getPluginFiles sep rr) f := by
  rw [mem_comparePlugins_files] at hc
  obtain ⟨g, hg, rfl⟩ := hc
  rw [classifyFile_file] at hf
  subst hf; rfl

theorem entry_exists_of_mem_union (sep : Char) (lp rp : String) (lr rr : FSNode) {f : String}
    (hf : f ∈ getPluginFiles sep lr ∨ f ∈ getPluginFiles sep rr) :
    ∃ c ∈ (comparePlugins sep lp rp lr rr).files, c.file = f := by
  refine ⟨classifyFile lr rr sep (getPluginFiles sep lr) (getPluginFiles sep rr) f, ?_,
    classifyFile_file lr rr sep (getPluginFiles sep lr) (getPluginFiles sep rr) f⟩
  rw [mem_comparePlugins_files]
  exact ⟨f, (mem_jsSetOfList _ f).mpr (List.mem_append.mpr hf), rfl⟩

theorem classifyFile_both {lr rr : FSNode} {sep : Char} {lf rf : List String} {f : String}
    (hl : f ∈ lf) (hr : f ∈ rf) :
    classifyFile lr rr sep lf rf f = compareFiles lr rr sep f f f := by
  unfold classifyFile
  rw [if_neg (not_not_intro hl), if_neg (not_not_intro hr)]

theorem classifyFile_local_only {lr rr : FSNode} {sep : Char} {lf rf : List String} {f : String}
    (hl : f ∈ lf) (hr : f ∉ rf) :
    classifyFile lr rr sep lf rf f
      = { file := f, status := .local_only, localSize := getFileSize lr sep f } := by
  unfold classifyFile
  rw [if_neg (not_not_intro hl), if_pos hr]

theorem classifyFile_remote_only {lr rr : FSNode} {sep : Char} {lf rf : List String} {f : String}
    (hl : f ∉ lf) :
    classifyFile lr rr sep lf rf f
      = { file := f, status := .remote_only, remoteSize := getFileSize rr sep f } := by
  unfold classifyFile
  rw [if_pos hl]

theorem compareFiles_identical {lr rr : FSNode} {sep : Char} {f s : String}
    (hl : readFileUtf8 lr sep f = some s) (hr : readFileUtf8 rr sep f = some s) :
    compareFiles lr rr sep f f f
      = { file := f, status := .identical, localSize := getFileSize lr sep f,
          remoteSize := getFileSize rr sep f } := by
  unfold compareFiles
  rw [hl, hr]
  dsimp only
  rw [if_pos rfl]

theorem compareFiles_different {lr rr : FSNode} {sep : Char} {f lc rc : String}
    (hl : readFileUtf8 lr sep f = some lc) (hr : readFileUtf8 rr sep f = some rc)
    (hne : lc ≠ rc) :
    compareFiles lr rr sep f f f
      = { file := f, status := .different,
          diff := some (createPatch f rc lc "WordPress.org" "Local"),
          localSize := getFileSize lr sep f, remoteSize := getFileSize rr sep f } := by
  unfold compareFiles
  rw [hl, hr]
  dsimp only
  rw [if_neg hne]

theorem compareFiles_fallback {lr rr : FSNode} {sep : Char} {f : String}
    (hfail : readFileUtf8 lr sep f = none ∨ readFileUtf8 rr sep f = none) :
    compareFiles lr rr sep f f f
      = { file := f,
          status := if getFileSize lr sep f = getFileSize rr sep f
            then .identical else .different,
          localSize := getFileSize lr sep f, remoteSize := getFileSize rr sep f } := by
  unfold compareFiles
  rcases hfail with h | h
  · rw [h]
  · rcases h1 : readFileUtf8 lr sep f with _ | lc <;> rw [h]

/-- C6: a path present in both trees with byte-identical readable text on
both sides yields status `identical`, no `diff`, and both size fields
carrying the best-effort stat results. -/
theorem C6_identical_entry (sep : Char) (lp rp : String) (lr rr : FSNode) (f s : String)
    (hl : f ∈ getPluginFiles sep lr) (hr : f ∈ getPluginFiles sep rr)
    (hlt : readFileUtf8 lr sep f = some s) (hrt : readFileUtf8 rr sep f = some s) :
    (∃ c ∈ (comparePlugins sep lp rp lr rr).files, c.file = f) ∧
    ∀ c ∈ (comparePlugins sep lp rp lr rr).files, c.file = f →
      c.status = FileStatus.identical ∧ c.diff = none ∧
      c.localSize = getFileSize lr sep f ∧ c.remoteSize = getFileSize rr sep f := by
  constructor
  · exact entry_exists_of_mem_union sep lp rp lr rr (.inl hl)
  · intro c hc hcf
    rw [entry_for_mem sep lp rp lr rr hc hcf, classifyFile_both hl hr,
      compareFiles_identical hlt hrt]
    exact ⟨rfl, rfl, rfl, rfl⟩

theorem C6_identical_entry_witness :
    "main.php" ∈ getPluginFiles '/' sampleLocalRoot ∧
    "main.php" ∈ getPluginFiles '/' sampleRemoteRoot ∧
    readFileUtf8 sampleLocalRoot '/' "main.php" = some "same" ∧
    readFileUtf8 sampleRemoteRoot '/' "main.php" = some "same" ∧
    ((∃ c ∈ (comparePlugins '/' "local" "remote" sampleLocalRoot sampleRemoteRoot).files,
        c.file = "main.php") ∧
      ∀ c ∈ (comparePlugins '/' "local" "remote" sampleLocalRoot sampleRemoteRoot).files,
        c.file = "main.php" →
        c.status = FileStatus.identical ∧ c.diff = none ∧
        c.localSize = getFileSize sampleLocalRoot '/' "main.php" ∧
        c.remoteSize = getFileSize sampleRemoteRoot '/' "main.php") :=
  ⟨by decide, by decide, by decide, by decide,
    C6_identical_entry '/' "local" "remote" sampleLocalRoot sampleRemoteRoot "main.php" "same"
      (by decide) (by decide) (by decide) (by decide)⟩

/-- C4: a path present in both trees whose text read fails on either side
is classified by comparing the best-effort sizes alone, with no diff. -/
theorem C4_read_failure_fallback (sep : Char) (lp rp : String) (lr rr : FSNode) (f : String)
    (hl : f ∈ getPluginFiles sep lr) (hr : f ∈ getPluginFiles sep rr)
    (hfail : readFileUtf8 lr sep f = none ∨ readFileUtf8 rr sep f = none) :
    (∃ c ∈ (comparePlugins sep lp rp lr rr).files, c.file = f) ∧
    ∀ c ∈ (comparePlugins sep lp rp lr rr).files, c.file = f →
      c.status = (if getFileSize lr sep f = getFileSize rr sep f
        then FileStatus.identical else FileStatus.different) ∧
      c.diff = none := by
  constructor
  · exact entry_exists_of_mem_union sep lp rp lr rr (.inl hl)
  · intro c hc hcf
    rw [entry_for_mem sep lp rp lr rr hc hcf, classifyFile_both hl hr,
      compareFiles_fallback hfail]
    exact ⟨rfl, rfl⟩

theorem C4_read_failure_fallback_witness :
    "bin.same" ∈ getPluginFiles '/' sampleLocalRoot ∧
    "bin.same" ∈ getPluginFiles '/' sampleRemoteRoot ∧
    readFileUtf8 sampleLocalRoot '/' "bin.same" = none ∧
    ((∃ c ∈ (comparePlugins '/' "local" "remote" sampleLocalRoot sampleRemoteRoot).files,
        c.file = "bin.same") ∧
      ∀ c ∈ (comparePlugins '/' "local" "remote" sampleLocalRoot sampleRemoteRoot).files,
        c.file = "bin.same" →
        c.status = (if getFileSize sampleLocalRoot '/' "bin.same"
            = getFileSize sampleRemoteRoot '/' "bin.same"
          then FileStatus.identical else FileStatus.different) ∧
        c.diff = none) :=
  ⟨by decide, by decide, by decide,
    C4_read_failure_fallback '/' "local" "remote" sampleLocalRoot sampleRemoteRoot "bin.same"
      (by decide) (by decide) (.inl (by decide))⟩

/-- C10: in the size-only fallback, two failed stats compare equal and the
entry is `identical` with both size fields absent and no diff; exactly one
failed stat compares unequal and the entry is `different`. -/
theorem C10_stat_failure_fallback (sep : Char) (lp rp : String) (lr rr : FSNode) (f : String)
    (hl : f ∈ getPluginFiles sep lr) (hr : f ∈ getPluginFiles sep rr)
    (hfail : readFileUtf8 lr sep f = none ∨ readFileUtf8 rr sep f = none) :
    ∀ c ∈ (comparePlugins sep lp rp lr rr).files, c.file = f →
      (getFileSize lr sep f = none → getFileSize rr sep f = none →
        c.status = FileStatus.identical ∧ c.localSize = none ∧
        c.remoteSize = none ∧ c.diff = none) ∧
      (getFileSize lr sep f = none → getFileSize rr sep f ≠ none →
        c.status = FileStatus.different) ∧
      (getFileSize lr sep f ≠ none → getFileSize rr sep f = none →
        c.status = FileStatus.different) := by
  intro c hc hcf
  rw [entry_for_mem sep lp rp lr rr hc hcf, classifyFile_both hl hr,
    compareFiles_fallback hfail]
  refine ⟨?_, ?_, ?_⟩
  · intro h1 h2
    refine ⟨?_, h1, h2, rfl⟩
    dsimp only
    rw [h1, h2, if_pos rfl]
  · intro h1 h2
    dsimp only
    rw [h1, if_neg (fun hh => h2 hh.symm)]
  · intro h1 h2
    dsimp only
    rw [h2, if_neg h1]

theorem C10_stat_failure_fallback_witness :
    "ghost.bin" ∈ getPluginFiles '/' sampleLocalRoot ∧
    "ghost.bin" ∈ getPluginFiles '/' sampleRemoteRoot ∧
    readFileUtf8 sampleLocalRoot '/' "ghost.bin" = none ∧
    getFileSize sampleLocalRoot '/' "ghost.bin" = none ∧
    getFileSize sampleRemoteRoot '/' "ghost.bin" = none ∧
    (∀ c ∈ (comparePlugins '/' "local" "remote" sampleLocalRoot sampleRemoteRoot).files,
      c.file = "ghost.bin" →
      (getFileSize sampleLocalRoot '/' "ghost.bin" = none →
        getFileSize sampleRemoteRoot '/' "ghost.bin" = none →
        c.status = FileStatus.identical ∧ c.localSize = none ∧
        c.remoteSize = none ∧ c.diff = none) ∧
      (getFileSize sampleLocalRoot '/' "ghost.bin" = none →
        getFileSize sampleRemoteRoot '/' "ghost.bin" ≠ none →
        c.status = FileStatus.different) ∧
      (getFileSize sampleLocalRoot '/' "ghost.bin" ≠ none →
        getFileSize sampleRemoteRoot '/' "ghost.bin" = none →
        c.status = FileStatus.different)) :=
  ⟨by decide, by decide, by decide, by decide, by decide,
    C10_stat_failure_fallback '/' "local" "remote" sampleLocalRoot sampleRemoteRoot "ghost.bin"
      (by decide) (by decide) (.inl (by decide))⟩

/-- C7: a path present in exactly one tree gets the corresponding
one-sided status, the present side best-effort size, the absent side
size field absent, and no diff. -/
theorem C7_one_sided_entries (sep : Char) (lp rp : String) (lr rr : FSNode) (f : String) :
    (f ∈ getPluginFiles sep lr → f ∉ getPluginFiles sep rr →
      (∃ c ∈ (comparePlugins sep lp rp lr rr).files, c.file = f) ∧
      ∀ c ∈ (comparePlugins sep lp rp lr rr).files, c.file = f →
        c.status = FileStatus.local_only ∧ c.localSize = getFileSize lr sep f ∧
        c.remoteSize = none ∧ c.diff = none) ∧
    (f ∉ getPluginFiles sep lr → f ∈ getPluginFiles sep rr →
      (∃ c ∈ (comparePlugins sep lp rp lr rr).files, c.file = f) ∧
      ∀ c ∈ (comparePlugins sep lp rp lr rr).files, c.file = f →
        c.status = FileStatus.remote_only ∧ c.localSize = none ∧
        c.remoteSize = getFileSize rr sep f ∧ c.diff = none) := by
  constructor
  · intro hl hr
    constructor
    · exact entry_exists_of_mem_union sep lp rp lr rr (.inl hl)
    · intro c hc hcf
      rw [entry_for_mem sep lp rp lr rr hc hcf, classifyFile_local_only hl hr]
      exact ⟨rfl, rfl, rfl, rfl⟩
  · intro hl hr
    constructor
    · exact entry_exists_of_mem_union sep lp rp lr rr (.inr hr)
    · intro c hc hcf
      rw [entry_for_mem sep lp rp lr rr hc hcf, classifyFile_remote_only hl]
      exact ⟨rfl, rfl, rfl, rfl⟩

theorem C7_one_sided_entries_witness :
    "local.txt" ∈ getPluginFiles '/' sampleLocalRoot ∧
    "local.txt" ∉ getPluginFiles '/' sampleRemoteRoot ∧
    "remote.txt" ∉ getPluginFiles '/' sampleLocalRoot ∧
    "remote.txt" ∈ getPluginFiles '/' sampleRemoteRoot ∧
    ((∃ c ∈ (comparePlugins '/' "local" "remote" sampleLocalRoot sampleRemoteRoot).files,
        c.file = "local.txt") ∧
      ∀ c ∈ (comparePlugins '/' "local" "remote" sampleLocalRoot sampleRemoteRoot).files,
        c.file = "local.txt" →
        c.status = FileStatus.local_only ∧
        c.localSize = getFileSize sampleLocalRoot '/' "local.txt" ∧
        c.remoteSize = none ∧ c.diff = none) ∧
    ((∃ c ∈ (comparePlugins '/' "local" "remote" sampleLocalRoot sampleRemoteRoot).files,
        c.file = "remote.txt") ∧
      ∀ c ∈ (comparePlugins '/' "local" "remote" sampleLocalRoot sampleRemoteRoot).files,
        c.file = "remote.txt" →
        c.status = FileStatus.remote_only ∧ c.localSize = none ∧
        c.remoteSize = getFileSize sampleRemoteRoot '/' "remote.txt" ∧ c.diff = none) :=
  ⟨by decide, by decide, by decide, by decide,
    (C7_one_sided_entries '/' "local" "remote" sampleLocalRoot sampleRemoteRoot "local.txt").1
      (by decide) (by decide),
    (C7_one_sided_entries '/' "local" "remote" sampleLocalRoot sampleRemoteRoot "remote.txt").2
      (by decide) (by decide)⟩

/-- C3: an unreadable or missing root enumerates as zero files, and with
the local root missing every produced entry is `remote_only`; the
comparison is total and never propagates an error. -/
theorem C3_missingRootDegrades (sep : Char) (lp rp : String) (rr : FSNode) :
    getPluginFiles sep (FSNode.dir none) = [] ∧
    ∀ c ∈ (comparePlugins sep lp rp (FSNode.dir none) rr).files,
      c.status = FileStatus.remote_only := by
  constructor
  · rfl
  · intro c hc
    rw [mem_comparePlugins_files] at hc
    obtain ⟨g, hg, rfl⟩ := hc
    have hnl : g ∉ getPluginFiles sep (FSNode.dir none) := by
      intro h
      exact (List.not_mem_nil g) h
    rw [classifyFile_remote_only hnl]

theorem C3_missingRootDegrades_witness :
    getPluginFiles '/' (FSNode.dir none) = [] ∧
    (⟨"remote.txt", .remote_only, none, none, some 1⟩ : FileComparison)
        ∈ (comparePlugins '/' "local" "remote" (FSNode.dir none) sampleRemoteRoot).files ∧
    FileComparison.status ⟨"remote.txt", .remote_only, none, none, some 1⟩
        = FileStatus.remote_only :=
  ⟨(C3_missingRootDegrades '/' "local" "remote" sampleRemoteRoot).1, by decide,
    (C3_missingRootDegrades '/' "local" "remote" sampleRemoteRoot).2 _ (by decide)⟩

/-- The modelled patch always starts with its header, so it is never the
empty string. -/
theorem createPatch_ne_empty (fileName oldStr newStr oldHeader newHeader : String) :
    createPatch fileName oldStr newStr oldHeader newHeader ≠ "" := by
  unfold createPatch
  intro h
  have hlen := congrArg String.length h
  simp only [String.length_append] at hlen
  have h7 : ("Index: " : String).length = 7 := by decide
  rw [h7] at hlen
  simp at hlen

/-- C5 as stated fails on the code: both reads can succeed with differing
text while a stat fails, leaving a size field absent; here the local file
is readable (text `A`) but not statable, so the `different` entry has no
`localSize` even though the claim requires both sizes recorded. -/
theorem C5_counterexample :
    readFileUtf8 statFailLocalRoot '/' "main.php" = some "A" ∧
    readFileUtf8 statFailRemoteRoot '/' "main.php" = some "B" ∧
    (comparePlugins '/' "local" "remote" statFailLocalRoot statFailRemoteRoot).files.map
        (fun c => (c.file, c.status, c.localSize))
      = [("main.php", FileStatus.different, (none : Option Nat))] :=
  ⟨by decide, by decide, by decide⟩

/-- C5 amended: a path present in both trees with readable but unequal
text yields status `different` and a non-empty unified diff built from the
remote content as the from side and the local content as the to side,
labelled `WordPress.org` / `Local` over the relative path of the file; the two
size fields carry the best-effort stat results (present when statable). -/
theorem C5_different_entry (sep : Char) (lp rp : String) (lr rr : FSNode) (f lc rc : String)
    (hl : f ∈ getPluginFiles sep lr) (hr : f ∈ getPluginFiles sep rr)
    (hlt : readFileUtf8 lr sep f = some lc) (hrt : readFileUtf8 rr sep f = some rc)
    (hne : lc ≠ rc) :
    (∃ c ∈ (comparePlugins sep lp rp lr rr).files, c.file = f) ∧
    ∀ c ∈ (comparePlugins sep lp rp lr rr).files, c.file = f →
      c.status = FileStatus.different ∧
      c.diff = some (createPatch f rc lc "WordPress.org" "Local") ∧
      createPatch f rc lc "WordPress.org" "Local" ≠ "" ∧
      c.localSize = getFileSize lr sep f ∧ c.remoteSize = getFileSize rr sep f := by
  constructor
  · exact entry_exists_of_mem_union sep lp rp lr rr (.inl hl)
  · intro c hc hcf
    rw [entry_for_mem sep lp rp lr rr hc hcf, classifyFile_both hl hr,
      compareFiles_different hlt hrt hne]
    exact ⟨rfl, rfl, createPatch_ne_empty f rc lc "WordPress.org" "Local", rfl, rfl⟩

theorem C5_different_entry_witness :
    "diff.php" ∈ getPluginFiles '/' sampleLocalRoot ∧
    "diff.php" ∈ getPluginFiles '/' sampleRemoteRoot ∧
    readFileUtf8 sampleLocalRoot '/' "diff.php" = some "local" ∧
    readFileUtf8 sampleRemoteRoot '/' "diff.php" = some "remote" ∧
    ((∃ c ∈ (comparePlugins '/' "local" "remote" sampleLocalRoot sampleRemoteRoot).files,
        c.file = "diff.php") ∧
      ∀ c ∈ (comparePlugins '/' "local" "remote" sampleLocalRoot sampleRemoteRoot).files,
        c.file = "diff.php" →
        c.status = FileStatus.different ∧
        c.diff = some (createPatch "diff.php" "remote" "local" "WordPress.org" "Local") ∧
        createPatch "diff.php" "remote" "local" "WordPress.org" "Local" ≠ "" ∧
        c.localSize = getFileSize sampleLocalRoot '/' "diff.php" ∧
        c.remoteSize = getFileSize sampleRemoteRoot '/' "diff.php") :=
  ⟨by decide, by decide, by decide, by decide,
    C5_different_entry '/' "local" "remote" sampleLocalRoot sampleRemoteRoot
      "diff.php" "local" "remote" (by decide) (by decide) (by decide) (by decide)
      (by decide)⟩

/-- C8 as stated fails on the code: the enumerator joins path components
with the platform separator, so on a platform whose separator is a
backslash the nested file is reported as `inc\x5ch.php`, not as the
forward-slash path `inc/h.php`. -/
theorem C8_counterexample :
    getPluginFiles '\x5c' nestedRoot = ["inc\x5ch.php"] ∧
    ReachesFile nestedRoot ["inc", "h.php"] ∧
    "inc\x5ch.php" ≠ "inc/h.php" := by
  refine ⟨by decide, ?_, by decide⟩
  unfold nestedRoot
  exact .nest (.head _) (.head (.head _))

/-- C8 amended: for every separator, the enumerator returns exactly the
separator-joined relative paths of the files reachable through readable
directories under the root (forward-slash style exactly when the platform
separator is `/`). -/
theorem C8_enumerator_complete (sep : Char) (root : FSNode) (f : String) :
    f ∈ getPluginFiles sep root ↔
      ∃ segs, ReachesFile root segs ∧ f = segs.foldl (joinRel sep) "" :=
  mem_getPluginFiles_iff sep root f

theorem C8_enumerator_complete_witness :
    "inc/h.php" ∈ getPluginFiles '/' nestedRoot :=
  (C8_enumerator_complete '/' nestedRoot "inc/h.php").mpr
    ⟨["inc", "h.php"],
      by unfold nestedRoot; exact .nest (.head _) (.head (.head _)), by decide⟩

theorem strFoldlAppend : ∀ (l : List String) (a b : String),
    l.foldl (fun r s => r ++ s) (a ++ b) = a ++ l.foldl (fun r s => r ++ s) b := by
  intro l
  induction l with
  | nil => intro a b; rfl
  | cons x xs ih =>
    intro a b
    rw [List.foldl_cons, List.foldl_cons, String.append_assoc]
    exact ih a (b ++ x)

theorem strJoin_cons (s : String) (l : List String) :
    String.join (s :: l) = s ++ String.join l := by
  show List.foldl (fun r t => r ++ t) ("" ++ s) l = s ++ String.join l
  rw [String.empty_append]
  calc List.foldl (fun r t => r ++ t) s l
      = List.foldl (fun r t => r ++ t) (s ++ "") l := by rw [String.append_empty]
    _ = s ++ List.foldl (fun r t => r ++ t) "" l := strFoldlAppend l s ""
    _ = s ++ String.join l := rfl

theorem foldl_dashline : ∀ (l : List FileComparison) (init : String),
    l.foldl (fun o f => o ++ ("- " ++ f.file ++ "\n")) init
      = init ++ String.join ((l.map FileComparison.file).map specFileLine) := by
  intro l
  induction l with
  | nil =>
    intro init
    rw [List.foldl_nil, List.map_nil, List.map_nil]
    exact (String.append_empty init).symm
  | cons x xs ih =>
    intro init
    rw [List.foldl_cons, ih, List.map_cons, List.map_cons, strJoin_cons]
    simp only [specFileLine, String.append_assoc]

/-- C9: the formatter emits exactly the report the spec describes — fixed
header and statistics block, then the three conditional sections in order,
each present exactly when its summary count is positive, one `- <path>`
line per listed file, nothing for identical files; being a pure function
of the comparison value, its output is deterministic. -/
theorem C9_formatter_matches_spec (c : PluginComparison) :
    formatComparisonSummary c = specReport c := by
  unfold formatComparisonSummary specReport specReportHeader specSection specStatusPaths
  dsimp only
  simp only [foldl_dashline]
  split_ifs <;>
    simp only [String.append_assoc, String.append_empty, String.empty_append]
